import Mathlib

set_option maxHeartbeats 1000000

/-!
Verification of the photo-bundling pipeline of `app.py` (Streamlit
"Zip & Envie para Telegram" utility).

The embedding models:
* uploaded file objects as `FileObj` (name, byte content as a string, and a
  stream position, mirroring the mutable `seek`/`read`/`tell` state);
* `chunk_files_by_size` (batch splitter), `make_zip_in_memory`
  (bundle assembler), `apply_serial_to_name` (archive naming),
  `send_zip_to_telegram` (document-upload adapter, as an event trace), the
  serial auto-increment step of the send handler, and the batched send loop.

Machine integers do not overflow in any of this code (sizes are Python ints),
so sizes are plain `Nat`.  Wall-clock time is made an explicit `Nat`
parameter `now`; `zipfile.writestr` stamps every member with the current
time, which the model records in the `mtime` field of a `ZipEntry`.
-/

/-- A Streamlit `UploadedFile`-like object: original filename, byte content
(modelled as a string of bytes), and the current stream position.
`f.seek`, `f.tell`, `f.read` act on `pos`. -/
structure FileObj where
  name : String
  content : String
  pos : Nat
deriving DecidableEq, Repr

/-- `f.seek(0, os.SEEK_END); f.tell()` — the byte size of the file. -/
def fsize (f : FileObj) : Nat := f.content.length

/-- `f.seek(0)` — rewind the stream to position 0. -/
def reset (f : FileObj) : FileObj := ⟨f.name, f.content, 0⟩

/-- Recursive worker for `chunk_files_by_size` (app.py lines 135-154): the
accumulator `current` is the batch under construction and `total` its byte
total, exactly as in the Python loop.  Each file is measured by an end-seek
followed by `seek(0)`, so files enter batches with position 0. -/
def chunkAux (max_bytes : Nat) : List FileObj → List FileObj → Nat → List (List FileObj)
  | [], current, _ =>
      if current.isEmpty then [] else [current]
  | f :: rest, current, total =>
      let size := fsize f
      let f0 := reset f
      if max_bytes < size then
        (if current.isEmpty then [] else [current]) ++ [[f0]] ++ chunkAux max_bytes rest [] 0
      else if max_bytes < total + size then
        [current] ++ chunkAux max_bytes rest [f0] size
      else
        chunkAux max_bytes rest (current ++ [f0]) (total + size)

/-- `chunk_files_by_size(files, max_bytes)` from app.py lines 135-154
(the Python default for `max_bytes` is `45*1024*1024`). -/
def chunk_files_by_size (files : List FileObj) (max_bytes : Nat) : List (List FileObj) :=
  chunkAux max_bytes files [] 0

/-- Sum of the sizes of the files of one batch. -/
def sumSizes (b : List FileObj) : Nat := (b.map fsize).sum

theorem fsize_reset (f : FileObj) : fsize (reset f) = fsize f := rfl

theorem chunkAux_flatten (max_bytes : Nat) :
    ∀ (files current : List FileObj) (total : Nat),
      (chunkAux max_bytes files current total).flatten = current ++ files.map reset := by
  intro files
  induction files with
  | nil =>
      intro current total
      cases current <;> simp [chunkAux]
  | cons f rest ih =>
      intro current total
      by_cases h1 : max_bytes < fsize f
      · cases current <;>
          simp [chunkAux, h1, ih]
      · by_cases h2 : max_bytes < total + fsize f
        · simp [chunkAux, h1, h2, ih]
        · simp [chunkAux, h1, h2, ih]

theorem chunkAux_sums (max_bytes : Nat) :
    ∀ (files current : List FileObj) (total : Nat),
      total = sumSizes current → total ≤ max_bytes →
      ∀ b ∈ chunkAux max_bytes files current total,
        sumSizes b ≤ max_bytes ∨ ∃ f, b = [f] ∧ max_bytes < fsize f := by
  intro files
  induction files with
  | nil =>
      intro current total htot hle b hb
      by_cases hc : current.isEmpty <;> simp [chunkAux, hc] at hb
      subst hb
      exact Or.inl (htot ▸ hle)
  | cons f rest ih =>
      intro current total htot hle b hb
      by_cases h1 : max_bytes < fsize f
      · simp only [chunkAux, if_pos h1] at hb
        rcases List.mem_append.1 hb with hb' | hb'
        · rcases List.mem_append.1 hb' with hb'' | hb''
          · by_cases hc : current.isEmpty <;> simp [hc] at hb''
            subst hb''
            exact Or.inl (htot ▸ hle)
          · simp at hb''
            subst hb''
            exact Or.inr ⟨reset f, rfl, h1⟩
        · exact ih [] 0 rfl (Nat.zero_le _) b hb'
      · by_cases h2 : max_bytes < total + fsize f
        · simp only [chunkAux, if_neg h1, if_pos h2, List.singleton_append, List.mem_cons] at hb
          rcases hb with hb' | hb'
          · subst hb'
            exact Or.inl (htot ▸ hle)
          · refine ih [reset f] (fsize f) ?_ (Nat.le_of_not_lt h1) b hb'
            simp [sumSizes, fsize_reset]
        · simp only [chunkAux, if_neg h1, if_neg h2] at hb
          refine ih (current ++ [reset f]) (total + fsize f) ?_ (Nat.le_of_not_lt h2) b hb
          simp [sumSizes, fsize_reset] at htot ⊢
          omega

/-- `os.path.basename` for POSIX paths: everything after the final slash. -/
def pyBasename (s : String) : String :=
  String.mk ((s.data.reverse.takeWhile (fun c => c ≠ '/')).reverse)

/-- The per-file naming step of `make_zip_in_memory` (app.py line 99):
`os.path.basename(f.name).replace(" ", "_")`. -/
def derive_entry_name (s : String) : String :=
  String.mk ((pyBasename s).data.map (fun c => if c = ' ' then '_' else c))

/-- The character class of the regex `^[A-Za-z0-9_-]*$`. -/
def isSafeName (s : String) : Bool :=
  s.data.all (fun c => c.isAlphanum || c = '-' || c = '_')

/-- One member of the in-memory archive.  `lines` is the member's byte
content; a file member stores its bytes as a single cell, the manifest
member stores its lines (the serialized bytes are their newline join, so
the representation is lossless).  `mtime` is the timestamp `zipfile`
stamps into the member's header (current time at `writestr`). -/
structure ZipEntry where
  name : String
  lines : List String
  mtime : Nat
deriving DecidableEq, Repr

/-- The manifest text of `make_zip_in_memory` (app.py lines 104-111),
as its list of lines. -/
def manifestLines (serial filename ts : String) (names : List String) : List String :=
  ["SERIAL: " ++ serial,
   "ARQUIVO_ZIP: " ++ filename,
   "CRIADO_EM: " ++ ts,
   "QTD_ARQUIVOS: " ++ toString names.length,
   "ARQUIVOS:"] ++ names.map (fun n => "  - " ++ n)

/-- `make_zip_in_memory(file_objs, filename, serial, compresslevel)` from
app.py lines 93-115, with the wall clock made explicit as `now`.  Returns
the archive (file members in input order followed by the `MANIFESTO.txt`
member) together with the file objects' post-call stream states: each file
is read from its current position (`f.read()`) and then rewound
(`f.seek(0)`).  The deflate `compresslevel` parameterizes the byte
serialization but not the member structure, so it does not appear in the
result. -/
def make_zip_in_memory (file_objs : List FileObj) (filename serial : String)
    (compresslevel now : Nat) : List ZipEntry × List FileObj :=
  let _ := compresslevel
  let names := file_objs.map (fun f => derive_entry_name f.name)
  (file_objs.map (fun f => (⟨derive_entry_name f.name, [f.content.drop f.pos], now⟩ : ZipEntry))
     ++ [⟨"MANIFESTO.txt", manifestLines serial filename (toString now) names, now⟩],
   file_objs.map reset)

/-- The steps of `send_zip_to_telegram` (app.py lines 118-132), in source
order: credential check, 50 MiB size check, construction of the HTTP
request (URL and multipart payload), and the network POST. -/
inductive SendEvent where
  | credFail
  | credOk
  | sizeFail
  | sizeOk
  | buildRequest
  | postRequest
deriving DecidableEq, Repr

/-- The 50 MiB Bot API ceiling of app.py line 121: `50 * 1024 * 1024`. -/
def TELEGRAM_SIZE_LIMIT : Nat := 50 * 1024 * 1024

/-- `send_zip_to_telegram(zip_bytes, ...)` (app.py lines 118-132) as the
trace of steps it performs, where `zipLen` is `len(zip_bytes)`.  A
`ValueError` for missing credentials yields `[credFail]`; the size
`ValueError` yields `[credOk, sizeFail]`; otherwise the request is built
and posted.  Empty strings are falsy in `if not bot_token or not chat_id`. -/
def send_zip_to_telegram (zipLen : Nat) (botToken chatId : String) : List SendEvent :=
  if botToken = "" || chatId = "" then [.credFail]
  else if TELEGRAM_SIZE_LIMIT < zipLen then [.credOk, .sizeFail]
  else [.credOk, .sizeOk, .buildRequest, .postRequest]

/-- Python `str.isdigit()` restricted to ASCII input: non-empty and all
characters decimal digits. -/
def pyIsDigit (s : String) : Bool :=
  !s.data.isEmpty && s.data.all Char.isDigit

/-- Python `int(s)` on a string of decimal digits. -/
def pyIntOfDigits (s : String) : Nat :=
  s.data.foldl (fun a c => 10 * a + (c.toNat - 48)) 0

/-- Python `s.zfill(n)` on an unsigned digit string: left-pad with zeros
to length `n`. -/
def zfill (s : String) (n : Nat) : String :=
  String.mk (List.replicate (n - s.length) '0') ++ s

/-- The serial auto-increment step of the send handler (app.py lines
312-313 and 337-338), run after a fully successful send:
`if auto_increment_serial and serial.isdigit(): serial = str(int(serial)+1).zfill(len(serial))`. -/
def increment_serial (autoInc : Bool) (serial : String) : String :=
  if autoInc && pyIsDigit serial then zfill (Nat.repr (pyIntOfDigits serial + 1)) serial.length
  else serial

/-- Python `s.strip()`: remove leading and trailing whitespace. -/
def pyStrip (s : String) : String :=
  String.mk (((s.data.dropWhile Char.isWhitespace).reverse.dropWhile Char.isWhitespace).reverse)

/-- Python `s.lower()`. -/
def pyLower (s : String) : String := String.mk (s.data.map Char.toLower)

/-- Python `s.endswith(t)`. -/
def pyEndsWith (s t : String) : Bool := t.data.isSuffixOf s.data

/-- Python `f"{p:02d}"` for a natural number: decimal, zero-padded to a
minimum width of 2. -/
def pad2 (p : Nat) : String := if p < 10 then "0" ++ Nat.repr p else Nat.repr p

/-- The stem step of `apply_serial_to_name` (app.py line 159):
`base_name[:-4] if base_name.lower().endswith(".zip") else base_name`. -/
def stripZipExt (base : String) : String :=
  if pyEndsWith (pyLower base) ".zip" then String.mk (base.data.take (base.data.length - 4))
  else base

/-- The `_parteNN` suffix of `apply_serial_to_name` (app.py line 161):
`f"_parte{part:02d}" if part else ""` — `None` and `0` are both falsy. -/
def parteSuffix (part : Option Nat) : String :=
  match part with
  | none => ""
  | some p => if p = 0 then "" else "_parte" ++ pad2 p

/-- `apply_serial_to_name(base_name, serial, part)` from app.py lines
157-162. -/
def apply_serial_to_name (base_name serial : String) (part : Option Nat) : String :=
  let root := stripZipExt base_name
  let tag := if serial = "" then "" else "_NS-" ++ pyStrip serial
  let suffix := parteSuffix part
  root ++ tag ++ suffix ++ ".zip"

/-- The `sanitize` map of the specification: keep alphanumerics, `-` and
`_`, replace every other character by `_`. -/
def sanitize_spec (s : String) : String :=
  String.mk (s.data.map (fun c => if c.isAlphanum || c = '-' || c = '_' then c else '_'))

/-- Modelled from the words of the `applySerialToName` contract of the
specification: append `_NS-` plus the sanitized identifier when the
identifier is non-empty, and append `_parteNN` whenever a part number is
given. -/
def applySerialToName_claim (base_name serial : String) (part : Option Nat) : String :=
  let root := stripZipExt base_name
  let tag := if serial = "" then "" else "_NS-" ++ sanitize_spec serial
  let suffix := match part with
    | none => ""
    | some p => "_parte" ++ pad2 p
  root ++ tag ++ suffix ++ ".zip"

/-- Replace the manifest's `CRIADO_EM` (creation timestamp) line — line
index 2 of the manifest member — by a fixed placeholder. -/
def scrubTsEntry (e : ZipEntry) : ZipEntry :=
  ⟨e.name, e.lines.set 2 "CRIADO_EM: -", e.mtime⟩

/-- Scrub the manifest timestamp line of an archive: the manifest is the
last member, and only its `CRIADO_EM` line is replaced.  This is exactly
the "excluding the manifest timestamp line" comparison of the
specification; member header timestamps (`mtime`) are untouched. -/
def scrubManifestTs : List ZipEntry → List ZipEntry
  | [] => []
  | [e] => [scrubTsEntry e]
  | e :: f :: rest => e :: scrubManifestTs (f :: rest)

/-- Forget every member's header timestamp. -/
def zeroMtimes (a : List ZipEntry) : List ZipEntry :=
  a.map (fun e => ⟨e.name, e.lines, 0⟩)

/-- Events of the batched send loop (app.py lines 318-338): batch `i`
(1-based) is zipped, then either sent or failed; `allSuccess` records the
`sent == total` success branch (success message and the serial
auto-increment of lines 337-338). -/
inductive BatchEvent where
  | zipped : Nat → BatchEvent
  | sent : Nat → BatchEvent
  | failed : Nat → BatchEvent
  | allSuccess : BatchEvent
deriving DecidableEq, Repr

/-- Whether an event is a successful batch delivery. -/
def isSent : BatchEvent → Bool
  | .sent _ => true
  | _ => false

/-- The `for i, batch in enumerate(batches, start=1)` loop of app.py lines
322-334, with `sendOk i` telling whether `send_zip_to_telegram` succeeds
for batch `i`: each iteration zips the batch, then sends; on failure the
loop breaks.  `i` is the index of the first remaining batch, the second
argument the number of remaining batches. -/
def send_loop (sendOk : Nat → Bool) : Nat → Nat → List BatchEvent
  | _, 0 => []
  | i, n + 1 =>
      .zipped i :: (if sendOk i then .sent i :: send_loop sendOk (i + 1) n else [.failed i])

/-- The whole batched send path (app.py lines 318-338): run the loop over
`total` batches, then, exactly when the count of delivered batches equals
`total` (`if sent == total:`), perform the success effects. -/
def batched_send (sendOk : Nat → Bool) (total : Nat) : List BatchEvent :=
  let evs := send_loop sendOk 1 total
  if evs.countP isSent = total then evs ++ [.allSuccess] else evs

/-- The event list of a run of `k` consecutive successful batches starting
at index `i`: zipped/sent pairs in index order. -/
def okEvents : Nat → Nat → List BatchEvent
  | _, 0 => []
  | i, n + 1 => .zipped i :: .sent i :: okEvents (i + 1) n

/-- C1: for the Telegram document-upload transport with credentials
present, a payload strictly over 50 MiB raises the size-limit error after
the credential check and before the HTTP request is constructed or posted,
while a payload of exactly 50 MiB passes the check and the network call is
attempted. -/
theorem C1_telegram_size_gate (zipLen : Nat) (bot chat : String)
    (hb : bot ≠ "") (hc : chat ≠ "") :
    (TELEGRAM_SIZE_LIMIT < zipLen →
      send_zip_to_telegram zipLen bot chat = [.credOk, .sizeFail] ∧
      SendEvent.buildRequest ∉ send_zip_to_telegram zipLen bot chat ∧
      SendEvent.postRequest ∉ send_zip_to_telegram zipLen bot chat) ∧
    (zipLen = TELEGRAM_SIZE_LIMIT →
      send_zip_to_telegram zipLen bot chat =
        [.credOk, .sizeOk, .buildRequest, .postRequest]) := by
  constructor
  · intro h
    simp [send_zip_to_telegram, hb, hc, h]
  · intro h
    subst h
    simp [send_zip_to_telegram, hb, hc]

/-- Witness for C1 at a 50 MiB + 1 payload and an exactly-50 MiB payload. -/
theorem C1_telegram_size_gate_witness :
    send_zip_to_telegram (50 * 1024 * 1024 + 1) "token" "chat" = [.credOk, .sizeFail] ∧
    send_zip_to_telegram (50 * 1024 * 1024) "token" "chat" =
      [.credOk, .sizeOk, .buildRequest, .postRequest] :=
  ⟨((C1_telegram_size_gate (50 * 1024 * 1024 + 1) "token" "chat" (by decide) (by decide)).1
      (by norm_num [TELEGRAM_SIZE_LIMIT])).1,
   (C1_telegram_size_gate (50 * 1024 * 1024) "token" "chat" (by decide) (by decide)).2 rfl⟩

/-- C2: for a positive ceiling and rewound input files, every batch
produced by `chunk_files_by_size` totals at most the ceiling unless it is
a singleton holding one oversized file; the batches concatenate back to
the input list with nothing dropped or duplicated; and an empty input
yields no batches. -/
theorem C2_chunk_files_by_size_correct (files : List FileObj) (maxBytes : Nat)
    (_hpos : 0 < maxBytes) (h0 : ∀ f ∈ files, f.pos = 0) :
    (∀ b ∈ chunk_files_by_size files maxBytes,
        sumSizes b ≤ maxBytes ∨ ∃ f, b = [f] ∧ maxBytes < fsize f) ∧
    (chunk_files_by_size files maxBytes).flatten = files ∧
    chunk_files_by_size ([] : List FileObj) maxBytes = [] := by
  refine ⟨chunkAux_sums maxBytes files [] 0 rfl (Nat.zero_le _), ?_, by simp [chunk_files_by_size, chunkAux]⟩
  rw [chunk_files_by_size, chunkAux_flatten]
  rw [List.nil_append]
  have : files.map reset = files.map id := by
    refine List.map_congr_left ?_
    intro f hf
    have hp := h0 f hf
    cases f
    simp [reset] at hp ⊢
    omega
  rw [this, List.map_id]

/-- Witness for C2 on two files of sizes 2 and 3 with ceiling 3. -/
theorem C2_chunk_files_by_size_correct_witness :
    (∀ b ∈ chunk_files_by_size [⟨"a", "xx", 0⟩, ⟨"b", "yyy", 0⟩] 3,
        sumSizes b ≤ 3 ∨ ∃ f, b = [f] ∧ 3 < fsize f) ∧
    (chunk_files_by_size [⟨"a", "xx", 0⟩, ⟨"b", "yyy", 0⟩] 3).flatten =
      [⟨"a", "xx", 0⟩, ⟨"b", "yyy", 0⟩] ∧
    chunk_files_by_size ([] : List FileObj) 3 = [] :=
  C2_chunk_files_by_size_correct [⟨"a", "xx", 0⟩, ⟨"b", "yyy", 0⟩] 3 (by decide) (by decide)

/-- C3 counterexample: the auto-increment guard is `serial.isdigit()`, so
the identifier `"EQ-009"` is not all digits and is left unchanged — it does
not become `"EQ-010"` as the claim states. -/
theorem C3_counterexample :
    increment_serial true "EQ-009" = "EQ-009" ∧
    increment_serial true "EQ-009" ≠ "EQ-010" := by decide

/-- C3 amended: after a successful send with auto-increment enabled, an
all-digit stored identifier is incremented with its zero padding preserved
(`"009"` becomes `"010"`), while any identifier containing a non-digit
character — `"EQ-009"` as well as `"ABC"` — is left unchanged. -/
theorem C3_increment_serial_behaviour :
    increment_serial true "009" = "010" ∧
    increment_serial true "000123" = "000124" ∧
    increment_serial true "EQ-009" = "EQ-009" ∧
    increment_serial true "ABC" = "ABC" := by decide

/-- C4 counterexample: the per-file naming step only replaces spaces, so
`"foto.jpg"` keeps its dot and fails the `^[A-Za-z0-9_-]*$` class, and a
name with a directory component shrinks to its basename, so the length is
not preserved either. -/
theorem C4_counterexample :
    derive_entry_name "foto.jpg" = "foto.jpg" ∧
    isSafeName "foto.jpg" = false ∧
    (derive_entry_name "d/ab.jpg").length ≠ ("d/ab.jpg" : String).length := by decide

/-- C4 amended: the per-file name used for archive entries is the basename
of the input with every space replaced by an underscore: the output
contains no space, has the same length as the basename of the input, and
every other character passes through unchanged. -/
theorem C4_entry_name_sanitization (s : String) :
    (∀ c ∈ (derive_entry_name s).data, c ≠ ' ') ∧
    (derive_entry_name s).length = (pyBasename s).length ∧
    (derive_entry_name s).data =
      (pyBasename s).data.map (fun c => if c = ' ' then '_' else c) := by
  refine ⟨?_, ?_, rfl⟩
  · intro c hc
    have hc' : c ∈ (pyBasename s).data.map (fun c => if c = ' ' then '_' else c) := hc
    rw [List.mem_map] at hc'
    obtain ⟨c0, _, hc0⟩ := hc'
    subst hc0
    by_cases h : c0 = ' '
    · rw [if_pos h]
      decide
    · rw [if_neg h]
      exact h
  · show ((pyBasename s).data.map (fun c => if c = ' ' then '_' else c)).length =
      (pyBasename s).data.length
    exact List.length_map _ _

theorem make_zip_member_names (files : List FileObj) (fn serial : String) (lvl t : Nat) :
    (make_zip_in_memory files fn serial lvl t).1.map ZipEntry.name =
      files.map (fun f => derive_entry_name f.name) ++ ["MANIFESTO.txt"] := by
  simp [make_zip_in_memory, List.map_append, List.map_map, Function.comp]

/-- C5 counterexample: two uploads with the same original filename produce
two archive members with the same name — there is no collision check in
`make_zip_in_memory`, so the member names are not pairwise distinct. -/
theorem C5_counterexample :
    ¬ ((make_zip_in_memory [⟨"a.jpg", "x", 0⟩, ⟨"a.jpg", "y", 0⟩] "f.zip" "S" 9 0).1.map
        ZipEntry.name).Nodup := by decide

/-- C5 amended: `make_zip_in_memory` performs no collision check; the
member names are the derived names in input order followed by
`MANIFESTO.txt`, so they are pairwise distinct exactly when the derived
names are already distinct and none of them is `MANIFESTO.txt`; input
lists with identical original names produce duplicate member names. -/
theorem C5_member_names_nodup (files : List FileObj) (fn serial : String) (lvl t : Nat)
    (hnd : (files.map (fun f => derive_entry_name f.name)).Nodup)
    (hm : "MANIFESTO.txt" ∉ files.map (fun f => derive_entry_name f.name)) :
    ((make_zip_in_memory files fn serial lvl t).1.map ZipEntry.name).Nodup := by
  rw [make_zip_member_names]
  rw [List.nodup_append]
  refine ⟨hnd, List.nodup_singleton _, ?_⟩
  intro x hx hx'
  rw [List.mem_singleton] at hx'
  subst hx'
  exact hm hx

/-- Witness for C5 on two files with distinct derived names. -/
theorem C5_member_names_nodup_witness :
    ((make_zip_in_memory [⟨"a.jpg", "x", 0⟩, ⟨"b.jpg", "y", 0⟩] "f.zip" "S" 9 0).1.map
        ZipEntry.name).Nodup :=
  C5_member_names_nodup [⟨"a.jpg", "x", 0⟩, ⟨"b.jpg", "y", 0⟩] "f.zip" "S" 9 0
    (by decide) (by decide)

/-- C6 counterexample: the identifier is only whitespace-stripped, not
sanitized (`"a b"` keeps its space in the `_NS-` tag), and a given part
number of `0` is falsy in Python, so no `_parte00` is appended; on both
inputs the code disagrees with the claimed behaviour. -/
theorem C6_counterexample :
    apply_serial_to_name "fotos.zip" "a b" none = "fotos_NS-a b.zip" ∧
    applySerialToName_claim "fotos.zip" "a b" none = "fotos_NS-a_b.zip" ∧
    apply_serial_to_name "fotos.zip" "a b" none ≠
      applySerialToName_claim "fotos.zip" "a b" none ∧
    apply_serial_to_name "fotos.zip" "x" (some 0) ≠
      applySerialToName_claim "fotos.zip" "x" (some 0) := by decide

/-- C6 amended: `apply_serial_to_name` strips a trailing `.zip` extension
(case-insensitively) from the base name, appends `_NS-` plus the
whitespace-stripped (not sanitized) identifier exactly when the identifier
is non-empty, appends `_parteNN` (zero-padded to 2 digits) exactly when a
non-zero part number is given, and the result always ends with the
canonical `.zip` extension. -/
theorem C6_apply_serial_to_name_shape (base serial : String) (part : Option Nat) :
    pyEndsWith (apply_serial_to_name base serial part) ".zip" = true ∧
    (serial = "" → apply_serial_to_name base serial part =
        stripZipExt base ++ parteSuffix part ++ ".zip") ∧
    (serial ≠ "" → apply_serial_to_name base serial part =
        stripZipExt base ++ ("_NS-" ++ pyStrip serial) ++ parteSuffix part ++ ".zip") ∧
    parteSuffix none = "" ∧
    parteSuffix (some 0) = "" ∧
    (∀ p : Nat, p ≠ 0 → parteSuffix (some p) = "_parte" ++ pad2 p) := by
  refine ⟨?_, ?_, ?_, rfl, rfl, ?_⟩
  · have he : apply_serial_to_name base serial part =
        (stripZipExt base ++ (if serial = "" then "" else "_NS-" ++ pyStrip serial) ++
          parteSuffix part) ++ ".zip" := by
      simp only [apply_serial_to_name]
    rw [he, pyEndsWith, List.isSuffixOf_iff_suffix, String.data_append]
    exact List.suffix_append _ _
  · intro h
    simp [apply_serial_to_name, h]
  · intro h
    simp [apply_serial_to_name, h]
  · intro p hp
    simp [parteSuffix, hp]

/-- Witness for C6 with the non-empty identifier `"1234"` and part 1. -/
theorem C6_apply_serial_to_name_shape_witness :
    apply_serial_to_name "fotos.zip" "1234" (some 1) =
      stripZipExt "fotos.zip" ++ ("_NS-" ++ pyStrip "1234") ++ parteSuffix (some 1) ++ ".zip" :=
  (C6_apply_serial_to_name_shape "fotos.zip" "1234" (some 1)).2.2.1 (by decide)

theorem scrubManifestTs_append (xs : List ZipEntry) (m : ZipEntry) :
    scrubManifestTs (xs ++ [m]) = xs ++ [scrubTsEntry m] := by
  induction xs with
  | nil => rfl
  | cons x xs ih =>
      cases xs with
      | nil => rfl
      | cons y ys =>
          exact congrArg (List.cons x) ih

/-- C7 counterexample: two invocations of `make_zip_in_memory` on the same
single-file input at different clock readings differ even after the
manifest timestamp line is scrubbed, because `zipfile.writestr` stamps
every member header with the current time. -/
theorem C7_counterexample :
    scrubManifestTs (make_zip_in_memory [⟨"a.jpg", "x", 0⟩] "f.zip" "S" 9 0).1 ≠
    scrubManifestTs (make_zip_in_memory [⟨"a.jpg", "x", 0⟩] "f.zip" "S" 9 1).1 := by decide

/-- C7 amended: for a fixed ordered file list, identifier, archive name,
and compression level, two invocations of `make_zip_in_memory` produce
identical archives once the manifest timestamp line and every member's
header modification timestamp are excluded. -/
theorem C7_determinism_mod_timestamps (files : List FileObj) (fn serial : String)
    (lvl t1 t2 : Nat) :
    zeroMtimes (scrubManifestTs (make_zip_in_memory files fn serial lvl t1).1) =
    zeroMtimes (scrubManifestTs (make_zip_in_memory files fn serial lvl t2).1) := by
  simp only [make_zip_in_memory, scrubManifestTs_append]
  simp only [zeroMtimes, List.map_append, List.map_map]
  congr 1

theorem send_loop_all_ok (sendOk : Nat → Bool) :
    ∀ (n i : Nat), (∀ j, i ≤ j → j < i + n → sendOk j = true) →
      send_loop sendOk i n = okEvents i n := by
  intro n
  induction n with
  | zero => intro i _; rfl
  | succ m ih =>
      intro i h
      have hi : sendOk i = true := h i (Nat.le_refl i) (by omega)
      simp only [send_loop, okEvents, hi, if_pos]
      rw [ih (i + 1) (fun j h1 h2 => h j (by omega) (by omega))]

theorem send_loop_first_fail (sendOk : Nat → Bool) (k : Nat) (hk : sendOk k = false) :
    ∀ (n i : Nat), i ≤ k → k < i + n →
      (∀ j, i ≤ j → j < k → sendOk j = true) →
      send_loop sendOk i n = okEvents i (k - i) ++ [.zipped k, .failed k] := by
  intro n
  induction n with
  | zero => intro i h1 h2 _; omega
  | succ m ih =>
      intro i h1 h2 h3
      rcases Nat.eq_or_lt_of_le h1 with he | hlt
      · subst he
        have h0 : i - i = 0 := by omega
        simp [send_loop, hk, h0, okEvents]
      · have hi : sendOk i = true := h3 i (Nat.le_refl i) hlt
        have hki : k - i = (k - (i + 1)) + 1 := by omega
        simp only [send_loop, hi, if_pos, hki, okEvents, List.cons_append]
        rw [ih (i + 1) (by omega) (by omega) (fun j a b => h3 j (by omega) b)]

theorem countP_isSent_okEvents : ∀ (n i : Nat), (okEvents i n).countP isSent = n := by
  intro n
  induction n with
  | zero => intro i; rfl
  | succ m ih =>
      intro i
      simp [okEvents, List.countP_cons, isSent, ih]

theorem sent_mem_okEvents : ∀ (n i j : Nat),
    BatchEvent.sent j ∈ okEvents i n ↔ i ≤ j ∧ j < i + n := by
  intro n
  induction n with
  | zero => intro i j; simp [okEvents]
  | succ m ih =>
      intro i j
      simp [okEvents, ih]
      omega

theorem zipped_mem_okEvents : ∀ (n i j : Nat),
    BatchEvent.zipped j ∈ okEvents i n ↔ i ≤ j ∧ j < i + n := by
  intro n
  induction n with
  | zero => intro i j; simp [okEvents]
  | succ m ih =>
      intro i j
      simp [okEvents, ih]
      omega

theorem allSuccess_not_mem_okEvents : ∀ (n i : Nat),
    BatchEvent.allSuccess ∉ okEvents i n := by
  intro n
  induction n with
  | zero => intro i; simp [okEvents]
  | succ m ih =>
      intro i
      simp [okEvents, ih]

/-- C8: the batched send path processes batches strictly in list order;
when batch `k` is the first whose send fails, the run consists of the
zipped/sent pairs of batches `1..k-1` followed by zipping and failing
batch `k` — no later batch is zipped or sent, every earlier batch remains
delivered, and the all-batches success effects do not happen; when every
batch sends, the run is all zipped/sent pairs followed by the success
effects. -/
theorem C8_batched_send_fail_fast (sendOk : Nat → Bool) (total k : Nat) :
    (1 ≤ k → k ≤ total → sendOk k = false →
      (∀ j, 1 ≤ j → j < k → sendOk j = true) →
      batched_send sendOk total = okEvents 1 (k - 1) ++ [.zipped k, .failed k] ∧
      BatchEvent.allSuccess ∉ batched_send sendOk total ∧
      (∀ j, k < j → BatchEvent.zipped j ∉ batched_send sendOk total ∧
                    BatchEvent.sent j ∉ batched_send sendOk total) ∧
      (∀ j, 1 ≤ j → j < k → BatchEvent.sent j ∈ batched_send sendOk total)) ∧
    ((∀ j, 1 ≤ j → j ≤ total → sendOk j = true) →
      batched_send sendOk total = okEvents 1 total ++ [.allSuccess]) := by
  constructor
  · intro hk1 hk2 hkf hpre
    have hloop : send_loop sendOk 1 total = okEvents 1 (k - 1) ++ [.zipped k, .failed k] :=
      send_loop_first_fail sendOk k hkf total 1 hk1 (by omega) (fun j a b => hpre j a b)
    have hcount : (send_loop sendOk 1 total).countP isSent = k - 1 := by
      rw [hloop, List.countP_append, countP_isSent_okEvents]
      simp [List.countP_cons, isSent]
    have hne : ¬ ((send_loop sendOk 1 total).countP isSent = total) := by
      rw [hcount]; omega
    have hbs : batched_send sendOk total = okEvents 1 (k - 1) ++ [.zipped k, .failed k] := by
      simp only [batched_send, if_neg hne]
      exact hloop
    refine ⟨hbs, ?_, ?_, ?_⟩
    · rw [hbs]
      simp [List.mem_append, allSuccess_not_mem_okEvents]
    · intro j hj
      rw [hbs]
      constructor
      · simp [List.mem_append, zipped_mem_okEvents]
        omega
      · simp [List.mem_append, sent_mem_okEvents]
        omega
    · intro j hj1 hj2
      rw [hbs]
      rw [List.mem_append]
      left
      rw [sent_mem_okEvents]
      omega
  · intro hall
    have hloop : send_loop sendOk 1 total = okEvents 1 total :=
      send_loop_all_ok sendOk total 1 (fun j a b => hall j a (by omega))
    have hcount : (send_loop sendOk 1 total).countP isSent = total := by
      rw [hloop, countP_isSent_okEvents]
    simp only [batched_send, if_pos hcount]
    rw [hloop]

/-- Witness for C8: first failure at batch 2 of 3, and a fully successful
2-batch run. -/
theorem C8_batched_send_fail_fast_witness :
    batched_send (fun j => j != 2) 3 = okEvents 1 1 ++ [.zipped 2, .failed 2] ∧
    batched_send (fun _ => true) 2 = okEvents 1 2 ++ [.allSuccess] := by
  constructor
  · exact ((C8_batched_send_fail_fast (fun j => j != 2) 3 2).1 (by omega) (by omega)
      (by decide) (fun j h1 h2 => by simp only [bne_iff_ne]; omega)).1
  · exact (C8_batched_send_fail_fast (fun _ => true) 2 2).2 (fun j _ _ => rfl)

/-- C9 counterexample: the fixed manifest member is named `MANIFESTO.txt`,
not `MANIFEST.txt` — no member named `MANIFEST.txt` exists in any archive
the code produces. -/
theorem C9_counterexample :
    "MANIFEST.txt" ∉ (make_zip_in_memory [⟨"a.jpg", "x", 0⟩] "f.zip" "S" 9 0).1.map
      ZipEntry.name ∧
    ((make_zip_in_memory [⟨"a.jpg", "x", 0⟩] "f.zip" "S" 9 0).1.map
      ZipEntry.name).getLast? = some "MANIFESTO.txt" := by decide

/-- C9 amended: every assembled archive contains, as its last member after
all file entries, a fixed member named `MANIFESTO.txt` whose lines list the
identifier, archive name, generation timestamp, file count, and the final
output names in input order. -/
theorem C9_manifest_member (files : List FileObj) (fn serial : String) (lvl t : Nat) :
    (make_zip_in_memory files fn serial lvl t).1.map ZipEntry.name =
      files.map (fun f => derive_entry_name f.name) ++ ["MANIFESTO.txt"] ∧
    (make_zip_in_memory files fn serial lvl t).1.getLast? =
      some ⟨"MANIFESTO.txt",
            manifestLines serial fn (toString t)
              (files.map (fun f => derive_entry_name f.name)), t⟩ := by
  refine ⟨make_zip_member_names files fn serial lvl t, ?_⟩
  simp only [make_zip_in_memory]
  rw [List.getLast?_concat]

/-- C10: both `chunk_files_by_size` and `make_zip_in_memory` leave every
input file object's stream position at 0 on return (every read or end-seek
is followed by `seek(0)`), so the same file objects can be measured,
chunked, and zipped repeatedly in one submission. -/
theorem C10_stream_positions (files : List FileObj) (maxBytes : Nat)
    (fn serial : String) (lvl t : Nat) :
    (∀ b ∈ chunk_files_by_size files maxBytes, ∀ f ∈ b, f.pos = 0) ∧
    (make_zip_in_memory files fn serial lvl t).2 = files.map reset ∧
    (∀ f ∈ (make_zip_in_memory files fn serial lvl t).2, f.pos = 0) := by
  refine ⟨?_, rfl, ?_⟩
  · intro b hb f hf
    have hmem : f ∈ (chunk_files_by_size files maxBytes).flatten :=
      List.mem_flatten.2 ⟨b, hb, hf⟩
    rw [chunk_files_by_size, chunkAux_flatten, List.nil_append] at hmem
    rw [List.mem_map] at hmem
    obtain ⟨g, _, hgf⟩ := hmem
    rw [← hgf]
    rfl
  · intro f hf
    have hmem : f ∈ files.map reset := hf
    rw [List.mem_map] at hmem
    obtain ⟨g, _, hgf⟩ := hmem
    rw [← hgf]
    rfl
